/-
A verification development for the VoltDB Rust client's connection engine
(`src/node.rs`): the handle sequence generator, the pending-request table,
the call/ping/shutdown operations, the receive loop's dispatch step
(`Node::job`), the handshake of `Node::new`, and the address parsing of
`get_node`.

The Rust code is shallowly embedded: machine `i64` arithmetic is modelled on
`Int` with explicit wrapping at 2^64, the `HashMap<i64, NetworkRequest>` as an
association list with HashMap lookup/insert/remove semantics, `mpsc` channels
as values carrying a "receiver still alive" flag, and socket I/O results as
explicit `Except`-valued inputs (oracles) standing for what the OS returned.
External collaborator crates that are not part of the repository's sources
(the frame codec, SHA-256, the response decoder) are modelled abstractly, as
the specification describes them, and are marked as such in doc comments.
-/

import Mathlib

/-! ## Machine integers -/

/-- Wrap an unbounded integer to the range of a 64-bit two's-complement
signed integer, `[-2^63, 2^63)`.  Rust's `AtomicI64::fetch_add` wraps on
overflow, which this function makes explicit. -/
def wrapI64 (x : Int) : Int :=
  (x + 2 ^ 63) % 2 ^ 64 - 2 ^ 63

/-- Big-endian interpretation of a list of bytes as an unsigned number
(most significant byte first), as `byteorder::BigEndian` reads it. -/
def beNat (l : List Nat) : Nat :=
  l.foldl (fun acc b => acc * 256 + b) 0

/-- A big-endian 8-byte sequence read as a two's-complement `i64`
(`ByteBuffer::read_i64`). -/
def beI64 (l : List Nat) : Int :=
  let v := beNat l
  if v < 2 ^ 63 then (v : Int) else (v : Int) - 2 ^ 64

/-- A big-endian 4-byte sequence read as a two's-complement `i32`
(`ByteBuffer::read_i32`). -/
def beI32 (l : List Nat) : Int :=
  let v := beNat l
  if v < 2 ^ 31 then (v : Int) else (v : Int) - 2 ^ 32

/-! ## The data model of `node.rs` -/

/-- `const PING_HANDLE: i64 = 1 << 63 - 1;` (node.rs line 21).  In Rust the
binary `-` binds tighter than `<<`, so the initialiser parses as
`1 << (63 - 1)`; the embedded definition reproduces that parse. -/
def PING_HANDLE : Int := 1 <<< (63 - 1)

/-- One half of an `mpsc::channel::<VoltTable>()`.  The model keeps an
identity (so theorems can say *which* channel a result was delivered on) and
whether the `Receiver` half is still alive: `Sender::send` succeeds exactly
when the receiver has not been dropped. -/
structure Chan where
  cid : Nat
  receiverAlive : Bool
deriving DecidableEq, Repr

/-- A decoded response table.  The byte-level decoding lives in the `table`
and `response` modules, which are external to the embedded file; the table
itself is opaque here, carrying only an identity. -/
structure VoltTable where
  tid : Nat
deriving DecidableEq, Repr

/-- `struct NetworkRequest` (node.rs lines 73-79): one entry of the
pending-request table. -/
structure NetworkRequest where
  handle : Int
  query : Bool
  sync : Bool
  num_bytes : Int
  channel : Chan
deriving DecidableEq, Repr

/-- The pending-request table `HashMap<i64, NetworkRequest>`, embedded as an
association list; the operations below give it HashMap semantics. -/
def ReqTable : Type := List (Int × NetworkRequest)

instance : DecidableEq ReqTable := by
  unfold ReqTable
  infer_instance

instance : Repr ReqTable := by
  unfold ReqTable
  infer_instance

/-- `HashMap::get`-style lookup on the association list. -/
def lookupReq : ReqTable → Int → Option NetworkRequest
  | [], _ => none
  | (k, r) :: t, h => if k = h then some r else lookupReq t h

/-- `HashMap::remove h`: the table no longer maps `h`; every other key is
untouched. -/
def removeReq : ReqTable → Int → ReqTable
  | [], _ => []
  | (k, r) :: t, h => if k = h then removeReq t h else (k, r) :: removeReq t h

/-- `HashMap::insert h r`: `h` now maps to `r`; every other key is
untouched. -/
def insertReq (t : ReqTable) (h : Int) (r : NetworkRequest) : ReqTable :=
  (h, r) :: removeReq t h

/-- The client-side error type (`VoltError`, defined in the crate's `encode`
module, whose file is not among the embedded sources).  Modelled from the
spec: §7's error taxonomy, plus the I/O and UTF-8 conversions the code in
`node.rs` relies on (`?` on socket reads/writes and on `from_utf8`). -/
inductive VoltError where
  | AuthFailed
  | ConnectionNotAvailable
  | Io (code : Nat)
  | Utf8
deriving DecidableEq, Repr

/-- A connected `TcpStream`, opaque except for an identity. -/
structure Socket where
  sid : Nat
deriving DecidableEq, Repr

/-- `struct ConnInfo` (node.rs lines 334-340).  `leader_addr` keeps the raw
`u32` value of the four big-endian bytes `Ipv4Addr::from` was given; `build`
keeps the decoded bytes of the build string. -/
structure ConnInfo where
  host_id : Int
  connection : Int
  leader_addr : Nat
  build : List Nat
deriving DecidableEq, Repr

/-- `struct Node` (node.rs lines 84-90).  The `Arc`/`RwLock`/`Mutex`
wrappers grant shared access; the state they guard is the fields here.
`counter` holds the current value of the `AtomicI64` (initialised to 1),
kept wrapped to the `i64` range by every operation. -/
structure NodeState where
  tcp_stream : Option Socket
  info : ConnInfo
  requests : ReqTable
  stop : Bool
  counter : Int
deriving DecidableEq, Repr

/-- A freshly constructed node as `Node::new` builds it on handshake
success: socket present, empty table, stop flag clear, counter at 1. -/
def initNode (info : ConnInfo) : NodeState :=
  { tcp_stream := some ⟨0⟩
    info := info
    requests := []
    stop := false
    counter := 1 }

/-- A placeholder `ConnInfo` for theorems that do not care about the
handshake data. -/
def dummyInfo : ConnInfo :=
  { host_id := 0, connection := 0, leader_addr := 0, build := [] }

/-! ## `Node::get_sequence` -/

/-- `Node::get_sequence` (node.rs lines 190-195): `fetch_add(1, Relaxed)` on
the counter returns the previous value and stores the wrapped successor. -/
def get_sequence (s : NodeState) : Int × NodeState :=
  (s.counter, { s with counter := wrapI64 (s.counter + 1) })

/-- The node state after `n` consecutive `get_sequence` calls on a fresh
node. -/
def iterSeq : Nat → NodeState
  | 0 => initNode dummyInfo
  | n + 1 => (get_sequence (iterSeq n)).2

/-- The handle returned by the `(n+1)`-th `get_sequence` call on a fresh
node (`n` counts from 0). -/
def seqReturn (n : Nat) : Int :=
  (get_sequence (iterSeq n)).1

/-! ## `Node::call_sp` and the operations built on it -/

/-- A parameter passed to a stored procedure (`&dyn Value`): the embedded
operations only ever pass strings and one binary blob, and never inspect
them. -/
inductive PValue where
  | str (v : String)
  | blob (v : List Nat)
deriving DecidableEq, Repr

/-- Modelled from the spec: the frame codec collaborator
(`new_procedure_invocation` / `ProcedureInvocation::bytes` / `slen`, in the
`procedure_invocation` module, not among the embedded sources) builds an
opaque request byte frame for `(handle, read-only flag, parameters,
procedure name)` and reports its encoded byte length.  The connection engine
consumes the bytes and the length without looking inside. -/
structure ProcInvocation where
  slen : Int
  bytes : List Nat
deriving DecidableEq, Repr

/-- The type of the abstract frame encoder standing for
`new_procedure_invocation`; theorems quantify over it. -/
def EncFn : Type := Int → Bool → List PValue → String → ProcInvocation

/-- A trivial encoder used to evaluate theorems on concrete inputs. -/
def enc0 : EncFn := fun _ _ _ _ => ⟨0, []⟩

/-- The externally observable steps `call_sp` takes, in order: allocating
the handle, registering the `NetworkRequest`, and writing the encoded frame
to the socket (the write event covers the whole `write_all`, so it stands
for the first byte written as well). -/
inductive CallEvent where
  | alloc (h : Int)
  | register (h : Int) (r : NetworkRequest)
  | sockWrite (bytes : List Nat)
deriving DecidableEq, Repr

/-- What a call returns to the caller, together with the node state it
leaves behind and the events it performed. -/
structure CallResult where
  res : Except VoltError Chan
  state : NodeState
  events : List CallEvent
deriving Repr

/-- `Node::call_sp` (node.rs lines 201-229).  `fresh` is the channel
`mpsc::channel()` creates for this call; `writeRes` is what
`stream.write_all` returns when a socket is present (an I/O oracle).  The
returned `Chan` on success stands for the `Receiver` handed back to the
caller. -/
def call_sp (enc : EncFn) (s : NodeState) (query : String) (param : List PValue)
    (fresh : Chan) (writeRes : Except Nat Unit) : CallResult :=
  let req := (get_sequence s).1
  let s1 := (get_sequence s).2
  let proc := enc req false param query
  let tx := fresh
  let seq : NetworkRequest :=
    { query := true
      handle := req
      num_bytes := proc.slen
      sync := true
      channel := tx }
  let s2 := { s1 with requests := insertReq s1.requests req seq }
  let ev := [CallEvent.alloc req, CallEvent.register req seq]
  match s2.tcp_stream with
  | none =>
      { res := Except.error VoltError.ConnectionNotAvailable, state := s2, events := ev }
  | some _ =>
      match writeRes with
      | Except.error e =>
          { res := Except.error (VoltError.Io e), state := s2
            events := ev ++ [CallEvent.sockWrite proc.bytes] }
      | Except.ok _ =>
          { res := Except.ok tx, state := s2
            events := ev ++ [CallEvent.sockWrite proc.bytes] }

/-- `Node::list_procedures` (node.rs lines 197-199): delegates to `call_sp`
with the `@SystemCatalog` procedure and the string `PROCEDURES`. -/
def list_procedures (enc : EncFn) (s : NodeState) (fresh : Chan)
    (writeRes : Except Nat Unit) : CallResult :=
  call_sp enc s "@SystemCatalog" [PValue.str "PROCEDURES"] fresh writeRes

/-- `Node::upload_jar` (node.rs lines 231-233): delegates to `call_sp` with
`@UpdateClasses`, the jar bytes and an empty string. -/
def upload_jar (enc : EncFn) (s : NodeState) (bs : List Nat) (fresh : Chan)
    (writeRes : Except Nat Unit) : CallResult :=
  call_sp enc s "@UpdateClasses" [PValue.blob bs, PValue.str ""] fresh writeRes

/-- `Node::query` (node.rs lines 235-239): delegates to `call_sp` with
`@AdHoc` and the SQL text as sole parameter. -/
def nodeQuery (enc : EncFn) (s : NodeState) (sql : String) (fresh : Chan)
    (writeRes : Except Nat Unit) : CallResult :=
  call_sp enc s "@AdHoc" [PValue.str sql] fresh writeRes

/-- `Node::ping` (node.rs lines 241-255): encodes a `@Ping` invocation
addressed with `PING_HANDLE`, registers nothing, and writes it if a socket
is present.  Returns the result and the (unchanged) node state. -/
def ping (enc : EncFn) (s : NodeState) (writeRes : Except Nat Unit) :
    Except VoltError Unit × NodeState :=
  let _proc := enc PING_HANDLE false [] "@Ping"
  match s.tcp_stream with
  | none => (Except.error VoltError.ConnectionNotAvailable, s)
  | some _ =>
      match writeRes with
      | Except.error e => (Except.error (VoltError.Io e), s)
      | Except.ok _ => (Except.ok (), s)

/-! ## `Node::shutdown` -/

/-- The externally observable effect of `shutdown`: both directions of the
socket were closed (`TcpStream::shutdown(Shutdown::Both)`). -/
inductive ShutEvent where
  | closedBoth (sid : Nat)
deriving DecidableEq, Repr

/-- `Node::shutdown` (node.rs lines 285-297).  The stop flag is set first;
if a socket is present, both its directions are closed (`closeRes` is the
OS's answer, and a failure propagates out through `?` *before* the socket
field is replaced); finally the socket is replaced with `None`. -/
def shutdown (s : NodeState) (closeRes : Except Nat Unit) :
    Except VoltError Unit × NodeState × List ShutEvent :=
  let s1 := { s with stop := true }
  match s1.tcp_stream with
  | none => (Except.ok (), { s1 with tcp_stream := none }, [])
  | some sock =>
      match closeRes with
      | Except.error e => (Except.error (VoltError.Io e), s1, [])
      | Except.ok _ =>
          (Except.ok (), { s1 with tcp_stream := none }, [ShutEvent.closedBoth sock.sid])

/-! ## The receive loop's dispatch step, `Node::job` -/

/-- How one `Node::job` dispatch ends.  `panicked` is the `.unwrap()` on
`sender.send(table)` firing after the caller dropped its `Receiver`;
`ioErr`/`decodeErr` are the `Err` returns the loop body reports. -/
inductive JobOutcome where
  | ok
  | ioErr (code : Nat)
  | decodeErr (e : VoltError)
  | panicked
deriving DecidableEq, Repr

/-- Modelled from the spec: the response decoder (`VoltResponseInfo::new`
followed by `new_volt_table`, in the `response` and `table` modules, not
among the embedded sources) parses the bytes that follow the handle into a
`VoltTable`, or fails with a decode error.  The receive loop treats it as a
black box, so theorems quantify over it. -/
def DecodeFn : Type := Int → List Nat → Except VoltError VoltTable

/-- A trivial decoder used to evaluate theorems on concrete inputs. -/
def dec0 : DecodeFn := fun _ _ => Except.ok ⟨0⟩

/-- The handle carried by a response frame body: one reserved byte, then an
8-byte big-endian `i64` (node.rs lines 266-267); `none` when the body is too
short for those reads. -/
def frameHandle (body : List Nat) : Option Int :=
  if body.length < 9 then none
  else some (beI64 ((body.drop 1).take 8))

/-- The result of one dispatch: the outcome, the table afterwards, and the
deliveries performed (which channel received which table). -/
structure DispatchResult where
  outcome : JobOutcome
  table : ReqTable
  delivered : List (Chan × VoltTable)
deriving Repr

/-- The body-processing part of `Node::job` (node.rs lines 263-277), applied
after a frame of positive length was read in full: discard one byte, read
the handle, discard ping responses, remove the matching entry, decode the
rest and send the result on the removed entry's channel — where the `Ok`
path of `send` needs the `Receiver` to still be alive, and the source's
`.unwrap()` turns a send failure into a panic of the loop's thread. -/
def jobDispatch (dec : DecodeFn) (body : List Nat) (t : ReqTable) : DispatchResult :=
  if body.length < 9 then
    { outcome := JobOutcome.decodeErr (VoltError.Io 0), table := t, delivered := [] }
  else
    let handle := beI64 ((body.drop 1).take 8)
    if handle = PING_HANDLE then
      { outcome := JobOutcome.ok, table := t, delivered := [] }
    else
      match lookupReq t handle with
      | none => { outcome := JobOutcome.ok, table := t, delivered := [] }
      | some r =>
          let t' := removeReq t handle
          match dec handle (body.drop 9) with
          | Except.error e =>
              { outcome := JobOutcome.decodeErr e, table := t', delivered := [] }
          | Except.ok tbl =>
              if r.channel.receiverAlive then
                { outcome := JobOutcome.ok, table := t', delivered := [(r.channel, tbl)] }
              else
                { outcome := JobOutcome.panicked, table := t', delivered := [] }

/-- One full iteration body of `Node::job` (node.rs lines 258-284):
`readRes` is what the blocking length read plus `read_exact` produced — an
I/O error, or the frame body (a zero-length read yields an empty body and
the body-processing part is skipped). -/
def job (dec : DecodeFn) (readRes : Except Nat (List Nat)) (t : ReqTable) :
    DispatchResult :=
  match readRes with
  | Except.error e => { outcome := JobOutcome.ioErr e, table := t, delivered := [] }
  | Except.ok body =>
      if body.length = 0 then
        { outcome := JobOutcome.ok, table := t, delivered := [] }
      else jobDispatch dec body t

/-- The node state after `n` consecutive `call_sp` invocations on a fresh
node (the trivial encoder, a fixed fresh channel and a successful write;
none of these affect the sequence of allocated handles). -/
def iterCall : Nat → NodeState
  | 0 => initNode dummyInfo
  | n + 1 => (call_sp enc0 (iterCall n) "@AdHoc" [] ⟨0, true⟩ (Except.ok ())).state

/-! ## The handshake of `Node::new` -/

/-- A `ByteBuffer` being read from (`bytebuffer::ByteBuffer`): the bytes and
the read position. -/
structure ByteBuf where
  data : List Nat
  rpos : Nat
deriving DecidableEq, Repr

/-- `ByteBuffer::read_u8`: the byte at the read position, or an I/O error
when the buffer is exhausted. -/
def bbReadU8 (b : ByteBuf) : Except VoltError (Nat × ByteBuf) :=
  match b.data.get? b.rpos with
  | some v => Except.ok (v, { b with rpos := b.rpos + 1 })
  | none => Except.error (VoltError.Io 0)

/-- `ByteBuffer::read_bytes n` / `read_exact` into a buffer of `n` bytes:
the next `n` bytes, or an I/O error when fewer remain. -/
def bbRead (b : ByteBuf) (n : Nat) : Except VoltError (List Nat × ByteBuf) :=
  if b.rpos + n ≤ b.data.length then
    Except.ok ((b.data.drop b.rpos).take n, { b with rpos := b.rpos + n })
  else Except.error (VoltError.Io 0)

/-- `ByteBuffer::read_i32` — four big-endian bytes as an `i32`. -/
def bbReadI32 (b : ByteBuf) : Except VoltError (Int × ByteBuf) := do
  let (bs, b') ← bbRead b 4
  return (beI32 bs, b')

/-- `ByteBuffer::read_i64` — eight big-endian bytes as an `i64`. -/
def bbReadI64 (b : ByteBuf) : Except VoltError (Int × ByteBuf) := do
  let (bs, b') ← bbRead b 8
  return (beI64 bs, b')

/-- Is a continuation byte of a UTF-8 sequence (`0x80..=0xBF`)? -/
def utf8Cont (b : Nat) : Bool :=
  0x80 ≤ b && b ≤ 0xBF

/-- `std::str::from_utf8` validity of a byte sequence: ASCII, and the 2-, 3-
and 4-byte sequences with their overlong and surrogate exclusions. -/
def validUtf8 : List Nat → Bool
  | [] => true
  | b :: r =>
    if b ≤ 0x7F then validUtf8 r
    else if 0xC2 ≤ b && b ≤ 0xDF then
      match r with
      | c1 :: r' => utf8Cont c1 && validUtf8 r'
      | [] => false
    else if b = 0xE0 then
      match r with
      | c1 :: c2 :: r' => (0xA0 ≤ c1 && c1 ≤ 0xBF) && utf8Cont c2 && validUtf8 r'
      | _ => false
    else if (0xE1 ≤ b && b ≤ 0xEC) || b = 0xEE || b = 0xEF then
      match r with
      | c1 :: c2 :: r' => utf8Cont c1 && utf8Cont c2 && validUtf8 r'
      | _ => false
    else if b = 0xED then
      match r with
      | c1 :: c2 :: r' => (0x80 ≤ c1 && c1 ≤ 0x9F) && utf8Cont c2 && validUtf8 r'
      | _ => false
    else if b = 0xF0 then
      match r with
      | c1 :: c2 :: c3 :: r' =>
          (0x90 ≤ c1 && c1 ≤ 0xBF) && utf8Cont c2 && utf8Cont c3 && validUtf8 r'
      | _ => false
    else if 0xF1 ≤ b && b ≤ 0xF3 then
      match r with
      | c1 :: c2 :: c3 :: r' =>
          utf8Cont c1 && utf8Cont c2 && utf8Cont c3 && validUtf8 r'
      | _ => false
    else if b = 0xF4 then
      match r with
      | c1 :: c2 :: c3 :: r' =>
          (0x80 ≤ c1 && c1 ≤ 0x8F) && utf8Cont c2 && utf8Cont c3 && validUtf8 r'
      | _ => false
    else false

/-- The response-parsing part of `Node::new` (node.rs lines 156-178),
applied to the handshake response body (the bytes after the 4-byte length
prefix): protocol version, auth status (any non-zero value aborts with
`AuthFailed` before anything else is looked at), host id, connection id, an
ignored 8-byte field, the leader address, and the length-prefixed build
string decoded as UTF-8.  A negative build-string length cannot be read
(`vec![0; length as usize]` with `length as usize` re-interpreting the
negative `i32` makes `read_exact` fail), so it is an I/O error. -/
def parseHandshake (all : List Nat) : Except VoltError ConnInfo :=
  match bbReadU8 { data := all, rpos := 0 } with
  | Except.error e => Except.error e
  | Except.ok (_version, res1) =>
    match bbReadU8 res1 with
    | Except.error e => Except.error e
    | Except.ok (auth, res2) =>
      if auth ≠ 0 then Except.error VoltError.AuthFailed
      else
        match bbReadI32 res2 with
        | Except.error e => Except.error e
        | Except.ok (host_id, res3) =>
          match bbReadI64 res3 with
          | Except.error e => Except.error e
          | Except.ok (connection, res4) =>
            match bbReadI64 res4 with
            | Except.error e => Except.error e
            | Except.ok (_, res5) =>
              match bbReadI32 res5 with
              | Except.error e => Except.error e
              | Except.ok (leader, res6) =>
                match bbReadI32 res6 with
                | Except.error e => Except.error e
                | Except.ok (length, res7) =>
                  if length < 0 then Except.error (VoltError.Io 0)
                  else
                    match bbRead res7 length.toNat with
                    | Except.error e => Except.error e
                    | Except.ok (build, _) =>
                      if validUtf8 build then
                        Except.ok { host_id := host_id
                                    connection := connection
                                    leader_addr := (leader % 2 ^ 32).toNat
                                    build := build }
                      else Except.error VoltError.Utf8

/-- What `Node::new` creates beyond its return value: the pending-request
table and the spawned receive loop. -/
inductive NewEvent where
  | tableCreated
  | listenSpawned
deriving DecidableEq, Repr

/-- `Node::new` (node.rs lines 115-189) from the point the handshake
response is read.  `netRead` is the combined outcome of connect, frame
write, length read and `read_exact` of the response body (any I/O failure
surfaces as an error before parsing); `cloneRes` is `try_clone` inside
`listen`.  On parse success the node is built with an empty table, a clear
stop flag and the counter at 1, and the receive loop is spawned before the
node is returned. -/
def node_new (netRead : Except Nat (List Nat)) (cloneRes : Except Nat Unit) :
    Except VoltError NodeState × List NewEvent :=
  match netRead with
  | Except.error e => (Except.error (VoltError.Io e), [])
  | Except.ok all =>
      match parseHandshake all with
      | Except.error e => (Except.error e, [])
      | Except.ok info =>
          match cloneRes with
          | Except.error e => (Except.error (VoltError.Io e), [NewEvent.tableCreated])
          | Except.ok _ => (Except.ok (initNode info),
              [NewEvent.tableCreated, NewEvent.listenSpawned])

/-! ## `get_node` address parsing -/

/-- Rust's `str::split(":")` on the characters of the address: splitting on
every colon, keeping empty segments, and yielding one (possibly empty)
segment even for the empty input. -/
def splitColon : List Char → List (List Char)
  | [] => [[]]
  | c :: rest =>
      if c = ':' then [] :: splitColon rest
      else
        match splitColon rest with
        | [] => [[c]]
        | g :: gs => (c :: g) :: gs

/-- The numeric value of a decimal digit character. -/
def digitVal (c : Char) : Option Nat :=
  if '0' ≤ c ∧ c ≤ '9' then some (c.toNat - '0'.toNat) else none

/-- Accumulate decimal digits; `none` on the first non-digit. -/
def parseDigitsAux (acc : Nat) : List Char → Option Nat
  | [] => some acc
  | c :: r =>
      match digitVal c with
      | some d => parseDigitsAux (acc * 10 + d) r
      | none => none

/-- `u16::from_str`: an optional leading `+`, then at least one decimal
digit and nothing else, with the value within `u16` range. -/
def u16_from_str (l : List Char) : Option Nat :=
  let l' := match l with
    | '+' :: r => r
    | _ => l
  match l' with
  | [] => none
  | _ =>
      match parseDigitsAux 0 l' with
      | none => none
      | some v => if v ≤ 65535 then some v else none

/-- How `get_node` leaves the calling thread: panicked on one of its
`unwrap()`s, or proceeding to `Node::new` with the parsed host and port. -/
inductive GetNodeOutcome where
  | panicked
  | connects (host : List Char) (port : Nat)
deriving DecidableEq, Repr

/-- `get_node` (node.rs lines 356-367) up to the hand-off to `Node::new`:
split the address on `:`, `unwrap()` the first and second components, and
`unwrap()` the `u16` parse of the second; any `unwrap()` of a `None`/`Err`
panics. -/
def get_node (addr : List Char) : GetNodeOutcome :=
  let url := splitColon addr
  match url.get? 0 with
  | none => GetNodeOutcome.panicked
  | some host =>
      match url.get? 1 with
      | none => GetNodeOutcome.panicked
      | some p =>
          match u16_from_str p with
          | none => GetNodeOutcome.panicked
          | some port => GetNodeOutcome.connects host port

/-- The words of claim C10, as a definition of its own (for comparison with
what the code does): the portion of the address after the *first* colon —
`none` when the address has no colon at all. -/
def claimAfterFirstColon : List Char → Option (List Char)
  | [] => none
  | c :: r => if c = ':' then some r else claimAfterFirstColon r

/-- A concrete response-frame body used to evaluate the receive-loop
theorems on an explicit input: reserved byte 7, then the handle 5 as eight
big-endian bytes. -/
def exBody : List Nat := [7, 0, 0, 0, 0, 0, 0, 0, 5]

/-- A concrete pending request for handle 5 whose caller still holds the
receiver. -/
def exReq : NetworkRequest :=
  { handle := 5, query := true, sync := true, num_bytes := 3,
    channel := { cid := 2, receiverAlive := true } }

/-- A one-entry table mapping handle 5 to `exReq`. -/
def exTable : ReqTable := [(5, exReq)]

/-! ## Arithmetic and table lemmas -/

theorem wrapI64_add_left (x y : Int) : wrapI64 (wrapI64 x + y) = wrapI64 (x + y) := by
  unfold wrapI64
  have h63 : (2 : Int) ^ 63 = 9223372036854775808 := by norm_num
  have h64 : (2 : Int) ^ 64 = 18446744073709551616 := by norm_num
  rw [h63, h64]
  omega

theorem wrapI64_eq_self (x : Int) (h1 : -(2 ^ 63) ≤ x) (h2 : x < 2 ^ 63) : wrapI64 x = x := by
  unfold wrapI64
  have h63 : (2 : Int) ^ 63 = 9223372036854775808 := by norm_num
  have h64 : (2 : Int) ^ 64 = 18446744073709551616 := by norm_num
  rw [h63, h64]
  omega

theorem lookupReq_removeReq (t : ReqTable) (h k : Int) :
    lookupReq (removeReq t h) k = if k = h then none else lookupReq t k := by
  induction t with
  | nil => simp [lookupReq, removeReq]
  | cons p t ih =>
      obtain ⟨k', r⟩ := p
      by_cases h1 : k' = h
      · rw [show removeReq ((k', r) :: t) h = removeReq t h from by simp [removeReq, h1]]
        rw [ih]
        by_cases h2 : k = h
        · simp [h2]
        · have h3 : k' ≠ k := fun e => h2 (e ▸ h1)
          simp [lookupReq, h2, h3]
      · rw [show removeReq ((k', r) :: t) h = (k', r) :: removeReq t h from by
          simp [removeReq, h1]]
        by_cases h2 : k' = k
        · have h3 : ¬ k = h := fun e => h1 (h2.trans e)
          simp [lookupReq, h2, h3]
        · simp [lookupReq, h2, ih]

theorem removeReq_of_lookup_none (t : ReqTable) (h : Int)
    (hl : lookupReq t h = none) : removeReq t h = t := by
  induction t with
  | nil => rfl
  | cons p t ih =>
      obtain ⟨k, r⟩ := p
      by_cases hk : k = h
      · simp [lookupReq, hk] at hl
      · simp only [lookupReq, if_neg hk] at hl
        simp [removeReq, hk, ih hl]

theorem lookupReq_insertReq_self (t : ReqTable) (h : Int) (r : NetworkRequest) :
    lookupReq (insertReq t h r) h = some r := by
  simp [insertReq, lookupReq]

theorem lookupReq_insertReq_ne (t : ReqTable) (h : Int) (r : NetworkRequest)
    (k : Int) (hk : k ≠ h) : lookupReq (insertReq t h r) k = lookupReq t k := by
  rw [insertReq]
  rw [show lookupReq ((h, r) :: removeReq t h) k = lookupReq (removeReq t h) k from by
    simp [lookupReq, Ne.symm hk]]
  rw [lookupReq_removeReq]
  simp [hk]

/-! ## Unfolding lemmas for `call_sp` -/

theorem call_sp_state (enc : EncFn) (s : NodeState) (q : String) (p : List PValue)
    (ch : Chan) (w : Except Nat Unit) :
    (call_sp enc s q p ch w).state =
      { s with counter := wrapI64 (s.counter + 1)
               requests := insertReq s.requests s.counter
                 { handle := s.counter, query := true, sync := true
                   num_bytes := (enc s.counter false p q).slen, channel := ch } } := by
  obtain ⟨ts, info, reqs, stp, cnt⟩ := s
  cases ts <;> cases w <;> rfl

theorem call_sp_events (enc : EncFn) (s : NodeState) (q : String) (p : List PValue)
    (ch : Chan) (w : Except Nat Unit) :
    (call_sp enc s q p ch w).events =
      CallEvent.alloc s.counter ::
      CallEvent.register s.counter
        { handle := s.counter, query := true, sync := true,
          num_bytes := (enc s.counter false p q).slen, channel := ch } ::
      (match s.tcp_stream with
       | none => []
       | some _ => [CallEvent.sockWrite (enc s.counter false p q).bytes]) := by
  obtain ⟨ts, info, reqs, stp, cnt⟩ := s
  cases ts <;> cases w <;> rfl

theorem iterSeq_counter (n : Nat) : (iterSeq n).counter = wrapI64 (1 + n) := by
  induction n with
  | zero => norm_num [iterSeq, initNode, dummyInfo, wrapI64]
  | succ n ih =>
      show (get_sequence (iterSeq n)).2.counter = _
      rw [show (get_sequence (iterSeq n)).2.counter = wrapI64 ((iterSeq n).counter + 1) from rfl]
      rw [ih, wrapI64_add_left]
      push_cast
      ring_nf

theorem seqReturn_eq (n : Nat) : seqReturn n = wrapI64 (1 + n) := by
  rw [show seqReturn n = (iterSeq n).counter from rfl, iterSeq_counter]

theorem iterCall_counter (n : Nat) : (iterCall n).counter = wrapI64 (1 + n) := by
  induction n with
  | zero => norm_num [iterCall, initNode, dummyInfo, wrapI64]
  | succ n ih =>
      show (call_sp enc0 (iterCall n) "@AdHoc" [] ⟨0, true⟩ (Except.ok ())).state.counter = _
      rw [call_sp_state]
      show wrapI64 ((iterCall n).counter + 1) = _
      rw [ih, wrapI64_add_left]
      push_cast
      ring_nf

/-! ## Lemmas about `splitColon` -/

theorem splitColon_ne_nil (l : List Char) : splitColon l ≠ [] := by
  induction l with
  | nil => simp [splitColon]
  | cons c r ih =>
      by_cases hc : c = ':'
      · simp [splitColon, hc]
      · simp only [splitColon, if_neg hc]
        cases hs : splitColon r with
        | nil => simp
        | cons g gs => simp

theorem splitColon_no_colon (l : List Char) (h : ':' ∉ l) : splitColon l = [l] := by
  induction l with
  | nil => rfl
  | cons c r ih =>
      have hc : c ≠ ':' := fun e => h (e ▸ List.mem_cons_self c r)
      have hr : ':' ∉ r := fun m => h (List.mem_cons_of_mem c m)
      simp only [splitColon, if_neg hc, ih hr]

/-! ## The claims -/

/-- Claim C1 (refuted by the code; theorem evaluating the failing input):
when the receive loop dispatches a response frame for handle 5 whose
registered channel's receiver has already been dropped, the loop does *not*
treat the send failure as "caller stopped waiting" — the `.unwrap()` on
`sender.send(table)` (node.rs line 275) panics the receive-loop thread. -/
theorem job_send_unwrap_panics_c1 :
    jobDispatch dec0 [7, 0, 0, 0, 0, 0, 0, 0, 5]
        [(5, { handle := 5, query := true, sync := true, num_bytes := 3,
               channel := { cid := 0, receiverAlive := false } })] =
      { outcome := JobOutcome.panicked, table := [], delivered := [] } := rfl

/-- Claim C2: for every frame the receive loop processes carrying handle
`H`, at most the table entry keyed exactly by `H` is removed and its channel
is the only channel a result is delivered on; every entry with a key
different from `H` is left unchanged; and if no entry for `H` exists, the
frame is dropped with the table and all registered channels unchanged. -/
theorem job_frame_effect_c2 (dec : DecodeFn) (body : List Nat) (t : ReqTable) (H : Int)
    (hH : frameHandle body = some H) :
    (∀ k : Int, k ≠ H → lookupReq (jobDispatch dec body t).table k = lookupReq t k)
    ∧ ((jobDispatch dec body t).table = t ∨ (jobDispatch dec body t).table = removeReq t H)
    ∧ (lookupReq t H = none →
        (jobDispatch dec body t).table = t ∧ (jobDispatch dec body t).delivered = [])
    ∧ (∀ d ∈ (jobDispatch dec body t).delivered,
        ∃ r, lookupReq t H = some r ∧ d.1 = r.channel) := by
  unfold frameHandle at hH
  by_cases hlen : body.length < 9
  · simp [hlen] at hH
  · simp only [if_neg hlen, Option.some_inj] at hH
    subst hH
    by_cases hp : beI64 ((body.drop 1).take 8) = PING_HANDLE
    · have key : jobDispatch dec body t =
          ⟨JobOutcome.ok, t, []⟩ := by
        simp only [jobDispatch, if_neg hlen, if_pos hp]
      rw [key]
      exact ⟨fun k _ => rfl, Or.inl rfl, fun _ => ⟨rfl, rfl⟩,
        fun d hd => absurd hd (List.not_mem_nil d)⟩
    · cases hl : lookupReq t (beI64 ((body.drop 1).take 8)) with
      | none =>
          have key : jobDispatch dec body t = ⟨JobOutcome.ok, t, []⟩ := by
            simp only [jobDispatch, if_neg hlen, if_neg hp, hl]
          rw [key]
          exact ⟨fun k _ => rfl, Or.inl rfl, fun _ => ⟨rfl, rfl⟩,
            fun d hd => absurd hd (List.not_mem_nil d)⟩
      | some r =>
          cases hd : dec (beI64 ((body.drop 1).take 8)) (body.drop 9) with
          | error e =>
              have key : jobDispatch dec body t =
                  ⟨JobOutcome.decodeErr e, removeReq t (beI64 ((body.drop 1).take 8)), []⟩ := by
                simp only [jobDispatch, if_neg hlen, if_neg hp, hl, hd]
              rw [key]
              refine ⟨?_, Or.inr rfl, ?_, ?_⟩
              · intro k hk
                rw [lookupReq_removeReq, if_neg hk]
              · intro hnone
                exact Option.noConfusion hnone
              · intro d hd2
                exact absurd hd2 (List.not_mem_nil d)
          | ok tbl =>
              cases ha : r.channel.receiverAlive with
              | true =>
                  have key : jobDispatch dec body t =
                      ⟨JobOutcome.ok, removeReq t (beI64 ((body.drop 1).take 8)),
                        [(r.channel, tbl)]⟩ := by
                    simp only [jobDispatch, if_neg hlen, if_neg hp, hl, hd, ha, if_true]
                  rw [key]
                  refine ⟨?_, Or.inr rfl, ?_, ?_⟩
                  · intro k hk
                    rw [lookupReq_removeReq, if_neg hk]
                  · intro hnone
                    exact Option.noConfusion hnone
                  · intro d hd2
                    rw [List.mem_singleton.mp hd2]
                    exact ⟨r, rfl, rfl⟩
              | false =>
                  have key : jobDispatch dec body t =
                      ⟨JobOutcome.panicked, removeReq t (beI64 ((body.drop 1).take 8)), []⟩ := by
                    simp only [jobDispatch, if_neg hlen, if_neg hp, hl, hd, ha,
                      Bool.false_eq_true, if_false]
                  rw [key]
                  refine ⟨?_, Or.inr rfl, ?_, ?_⟩
                  · intro k hk
                    rw [lookupReq_removeReq, if_neg hk]
                  · intro hnone
                    exact Option.noConfusion hnone
                  · intro d hd2
                    exact absurd hd2 (List.not_mem_nil d)

/-- Witness for C2: the frame-effect theorem evaluated on the concrete frame
`exBody` (handle 5) against the one-entry table `exTable`. -/
theorem job_frame_effect_c2_witness :
    frameHandle exBody = some 5
    ∧ ((∀ k : Int, k ≠ 5 →
          lookupReq (jobDispatch dec0 exBody exTable).table k = lookupReq exTable k)
       ∧ ((jobDispatch dec0 exBody exTable).table = exTable
          ∨ (jobDispatch dec0 exBody exTable).table = removeReq exTable 5)
       ∧ (lookupReq exTable 5 = none →
          (jobDispatch dec0 exBody exTable).table = exTable
          ∧ (jobDispatch dec0 exBody exTable).delivered = [])
       ∧ (∀ d ∈ (jobDispatch dec0 exBody exTable).delivered,
          ∃ r, lookupReq exTable 5 = some r ∧ d.1 = r.channel)) :=
  ⟨by decide, job_frame_effect_c2 dec0 exBody exTable 5 (by decide)⟩

/-- Claim C3: on a node whose socket is gone — in particular on the state a
successful `shutdown()` leaves behind — `call_sp`, the operations derived
from it (`query`, `list_procedures`, `upload_jar`) and `ping` all return
`Err(ConnectionNotAvailable)`; in the `call_sp` case the `PendingRequest`
registered for the freshly allocated handle remains in the table (is left
orphaned), and the socket stays absent, so the same holds for every later
invocation. -/
theorem calls_after_shutdown_c3 (enc : EncFn) (s : NodeState) (closeRes : Except Nat Unit)
    (hshut : (shutdown s closeRes).1 = Except.ok ()) :
    ((shutdown s closeRes).2.1).tcp_stream = none
    ∧ (∀ (s₀ : NodeState) (q : String) (p : List PValue) (ch : Chan)
         (w : Except Nat Unit) (sql : String) (bs : List Nat), s₀.tcp_stream = none →
        (call_sp enc s₀ q p ch w).res = Except.error VoltError.ConnectionNotAvailable
        ∧ lookupReq (call_sp enc s₀ q p ch w).state.requests s₀.counter =
            some { handle := s₀.counter, query := true, sync := true,
                   num_bytes := (enc s₀.counter false p q).slen, channel := ch }
        ∧ (call_sp enc s₀ q p ch w).state.tcp_stream = none
        ∧ (ping enc s₀ w).1 = Except.error VoltError.ConnectionNotAvailable
        ∧ (ping enc s₀ w).2 = s₀
        ∧ (nodeQuery enc s₀ sql ch w).res = Except.error VoltError.ConnectionNotAvailable
        ∧ (list_procedures enc s₀ ch w).res = Except.error VoltError.ConnectionNotAvailable
        ∧ (upload_jar enc s₀ bs ch w).res = Except.error VoltError.ConnectionNotAvailable) := by
  constructor
  · obtain ⟨ts, info, reqs, stp, cnt⟩ := s
    cases ts with
    | none => rfl
    | some sock =>
        cases closeRes with
        | error e => simp [shutdown] at hshut
        | ok u => rfl
  · intro s₀ q p ch w sql bs h₀
    obtain ⟨ts, info, reqs, stp, cnt⟩ := s₀
    cases ts with
    | some sock => cases h₀
    | none =>
        refine ⟨rfl, ?_, rfl, rfl, rfl, rfl, rfl, rfl⟩
        rw [call_sp_state]
        exact lookupReq_insertReq_self _ _ _

/-- Witness for C3: a fresh node, shut down successfully with the OS
accepting the close; every operation afterwards answers
`ConnectionNotAvailable` and `call_sp` leaves its entry orphaned. -/
theorem calls_after_shutdown_c3_witness :
    (shutdown (initNode dummyInfo) (Except.ok ())).1 = Except.ok ()
    ∧ (((shutdown (initNode dummyInfo) (Except.ok ())).2.1).tcp_stream = none
       ∧ (∀ (s₀ : NodeState) (q : String) (p : List PValue) (ch : Chan)
            (w : Except Nat Unit) (sql : String) (bs : List Nat), s₀.tcp_stream = none →
           (call_sp enc0 s₀ q p ch w).res = Except.error VoltError.ConnectionNotAvailable
           ∧ lookupReq (call_sp enc0 s₀ q p ch w).state.requests s₀.counter =
               some { handle := s₀.counter, query := true, sync := true,
                      num_bytes := (enc0 s₀.counter false p q).slen, channel := ch }
           ∧ (call_sp enc0 s₀ q p ch w).state.tcp_stream = none
           ∧ (ping enc0 s₀ w).1 = Except.error VoltError.ConnectionNotAvailable
           ∧ (ping enc0 s₀ w).2 = s₀
           ∧ (nodeQuery enc0 s₀ sql ch w).res = Except.error VoltError.ConnectionNotAvailable
           ∧ (list_procedures enc0 s₀ ch w).res = Except.error VoltError.ConnectionNotAvailable
           ∧ (upload_jar enc0 s₀ bs ch w).res = Except.error VoltError.ConnectionNotAvailable)) :=
  ⟨rfl, calls_after_shutdown_c3 enc0 (initNode dummyInfo) (Except.ok ()) rfl⟩

/-- Claim C4 (corrected): on a fresh node, `get_sequence` returns 1 first
and strictly increasing handles for as long as fewer than `2^63 - 1` calls
have been made (so three consecutive calls yield 1, 2, 3); the unqualified
original claim fails at the `i64` wrap-around, see
`get_sequence_wraps_cex_c4`. -/
theorem get_sequence_monotone_c4 (m n : Nat) (hmn : m < n) (hn : n < 2 ^ 63 - 1) :
    seqReturn m < seqReturn n ∧ seqReturn 0 = 1 ∧ seqReturn 1 = 2 ∧ seqReturn 2 = 3 := by
  refine ⟨?_, rfl, rfl, rfl⟩
  rw [seqReturn_eq, seqReturn_eq]
  rw [wrapI64_eq_self, wrapI64_eq_self]
  · omega
  · omega
  · omega
  · omega
  · omega

/-- Witness for C4's corrected statement at `m = 0`, `n = 2`. -/
theorem get_sequence_monotone_c4_witness :
    (0 : Nat) < 2 ∧ (2 : Nat) < 2 ^ 63 - 1 ∧
      (seqReturn 0 < seqReturn 2 ∧ seqReturn 0 = 1 ∧ seqReturn 1 = 2 ∧ seqReturn 2 = 3) :=
  ⟨by norm_num, by norm_num, get_sequence_monotone_c4 0 2 (by norm_num) (by norm_num)⟩

/-- Counterexample to C4 as frozen: `AtomicI64::fetch_add` wraps, so the
handle returned by call number `2^63` (index `2^63 - 1` from 0) is
`-2^63`, strictly smaller than the handle 1 returned by the first call —
the sequence is not strictly increasing over *every* pair of calls. -/
theorem get_sequence_wraps_cex_c4 :
    seqReturn (2 ^ 63 - 1) < seqReturn 0 := by
  have h0 : seqReturn 0 = 1 := rfl
  rw [seqReturn_eq, h0]
  have hc : ((2 ^ 63 - 1 : Nat) : Int) = 2 ^ 63 - 1 := by norm_num
  rw [hc]
  unfold wrapI64
  norm_num

/-- Claim C5 (corrected): `ping` registers no `PendingRequest` (the table is
untouched); a response frame whose handle equals the sentinel is discarded
by the receive loop before any table lookup — for *every* table, including
one that maps the sentinel — with no delivery; and `call_sp` inserts only
its freshly allocated handle, so it never inserts `PING_HANDLE` as long as
the sequence counter has not reached it.  The unqualified "never inserted by
any operation" fails once the counter reaches `2^62`, see
`ping_sentinel_cex_c5`. -/
theorem ping_sentinel_c5 (enc : EncFn) (s : NodeState) (w : Except Nat Unit)
    (dec : DecodeFn) (body : List Nat) (t : ReqTable)
    (q : String) (p : List PValue) (ch : Chan)
    (hb : frameHandle body = some PING_HANDLE)
    (hc : s.counter ≠ PING_HANDLE) :
    (ping enc s w).2.requests = s.requests
    ∧ jobDispatch dec body t = { outcome := JobOutcome.ok, table := t, delivered := [] }
    ∧ lookupReq (call_sp enc s q p ch w).state.requests PING_HANDLE =
        lookupReq s.requests PING_HANDLE := by
  refine ⟨?_, ?_, ?_⟩
  · unfold ping
    cases s.tcp_stream <;> cases w <;> rfl
  · unfold frameHandle at hb
    by_cases hlen : body.length < 9
    · simp [hlen] at hb
    · simp only [if_neg hlen, Option.some_inj] at hb
      unfold jobDispatch
      rw [if_neg hlen, if_pos hb]
  · rw [call_sp_state]
    exact lookupReq_insertReq_ne _ _ _ _ (fun e => hc e.symm)

/-- Witness for C5's corrected statement: a sentinel-handled frame is
discarded against the empty table, `ping` on a fresh node leaves the table
alone, and `call_sp` at counter 1 does not touch the sentinel key. -/
theorem ping_sentinel_c5_witness :
    frameHandle [7, 64, 0, 0, 0, 0, 0, 0, 0] = some PING_HANDLE
    ∧ (1 : Int) ≠ PING_HANDLE
    ∧ ((ping enc0 (initNode dummyInfo) (Except.ok ())).2.requests = (initNode dummyInfo).requests
       ∧ jobDispatch dec0 [7, 64, 0, 0, 0, 0, 0, 0, 0] [] =
           { outcome := JobOutcome.ok, table := [], delivered := [] }
       ∧ lookupReq (call_sp enc0 (initNode dummyInfo) "@AdHoc" [] ⟨0, true⟩
             (Except.ok ())).state.requests PING_HANDLE =
           lookupReq (initNode dummyInfo).requests PING_HANDLE) :=
  ⟨by decide, by decide,
   ping_sentinel_c5 enc0 (initNode dummyInfo) (Except.ok ()) dec0
     [7, 64, 0, 0, 0, 0, 0, 0, 0] [] "@AdHoc" [] ⟨0, true⟩ (by decide) (by decide)⟩

/-- Counterexample to C5 as frozen: after `2^62 - 1` calls the sequence
counter stands exactly at `PING_HANDLE` (the precedence slip makes the
sentinel `2^62`, within the counter's reach), and the next `call_sp` *does*
insert an entry keyed by the reserved sentinel into the pending-request
table. -/
theorem ping_sentinel_cex_c5 :
    (iterCall (2 ^ 62 - 1)).counter = PING_HANDLE
    ∧ lookupReq (call_sp enc0 (iterCall (2 ^ 62 - 1)) "@AdHoc" []
          ⟨0, true⟩ (Except.ok ())).state.requests PING_HANDLE =
        some { handle := PING_HANDLE, query := true, sync := true, num_bytes := 0,
               channel := ⟨0, true⟩ } := by
  have hcnt : (iterCall (2 ^ 62 - 1)).counter = PING_HANDLE := by
    rw [iterCall_counter]
    have hc : ((2 ^ 62 - 1 : Nat) : Int) = 2 ^ 62 - 1 := by norm_num
    rw [hc]
    unfold wrapI64 PING_HANDLE
    decide
  refine ⟨hcnt, ?_⟩
  rw [call_sp_state]
  rw [hcnt]
  exact lookupReq_insertReq_self _ _ _

/-- Claim C6: `shutdown` is idempotent under repeated calls — every call
sets the stop flag; a successful call closes both directions of the socket
when one is present and leaves the node without a socket; and after a
successful call, every further `shutdown` succeeds, performs no close, and
leaves the state exactly as the first left it. -/
theorem shutdown_idempotent_c6 (s : NodeState) (c1 : Except Nat Unit)
    (h : (shutdown s c1).1 = Except.ok ()) :
    (∀ s' : NodeState, ∀ c' : Except Nat Unit, ((shutdown s' c').2.1).stop = true)
    ∧ ((shutdown s c1).2.1).tcp_stream = none
    ∧ (∀ sock : Socket, s.tcp_stream = some sock →
        (shutdown s c1).2.2 = [ShutEvent.closedBoth sock.sid])
    ∧ (∀ c2 : Except Nat Unit,
        shutdown ((shutdown s c1).2.1) c2 = (Except.ok (), (shutdown s c1).2.1, [])) := by
  obtain ⟨ts, info, reqs, stp, cnt⟩ := s
  refine ⟨?_, ?_, ?_, ?_⟩
  · intro s' c'
    obtain ⟨ts', i', r', st', c''⟩ := s'
    cases ts' <;> cases c' <;> rfl
  · cases ts with
    | none => rfl
    | some sock =>
        cases c1 with
        | error e => simp [shutdown] at h
        | ok u => rfl
  · intro sock hsock
    cases ts with
    | none => cases hsock
    | some s0 =>
        cases c1 with
        | error e => simp [shutdown] at h
        | ok u =>
            cases hsock
            rfl
  · intro c2
    cases ts with
    | none => rfl
    | some sock =>
        cases c1 with
        | error e => simp [shutdown] at h
        | ok u => rfl

/-- Witness for C6: a fresh node with a live socket, shut down with the OS
accepting the close. -/
theorem shutdown_idempotent_c6_witness :
    (shutdown (initNode dummyInfo) (Except.ok ())).1 = Except.ok ()
    ∧ ((∀ s' : NodeState, ∀ c' : Except Nat Unit, ((shutdown s' c').2.1).stop = true)
       ∧ ((shutdown (initNode dummyInfo) (Except.ok ())).2.1).tcp_stream = none
       ∧ (∀ sock : Socket, (initNode dummyInfo).tcp_stream = some sock →
           (shutdown (initNode dummyInfo) (Except.ok ())).2.2 = [ShutEvent.closedBoth sock.sid])
       ∧ (∀ c2 : Except Nat Unit,
           shutdown ((shutdown (initNode dummyInfo) (Except.ok ())).2.1) c2
             = (Except.ok (), (shutdown (initNode dummyInfo) (Except.ok ())).2.1, []))) :=
  ⟨rfl, shutdown_idempotent_c6 (initNode dummyInfo) (Except.ok ()) rfl⟩

/-- Claim C7: in every execution of `call_sp`, the `PendingRequest` entry —
carrying the allocated handle, `query = true`, `sync = true`, the encoded
byte length and the channel's sending end — is registered in the table
strictly before any write of the request frame to the socket (the register
event sits at index 1 of the event trace and every socket-write event sits
strictly later); and whenever `call_sp` returns, on every path including a
write error, the entry for the allocated handle is present in the table. -/
theorem call_registers_before_write_c7 (enc : EncFn) (s : NodeState) (q : String)
    (p : List PValue) (ch : Chan) (w : Except Nat Unit) :
    lookupReq (call_sp enc s q p ch w).state.requests s.counter =
      some { handle := s.counter, query := true, sync := true,
             num_bytes := (enc s.counter false p q).slen, channel := ch }
    ∧ (call_sp enc s q p ch w).events.get? 1 =
        some (CallEvent.register s.counter
          { handle := s.counter, query := true, sync := true,
            num_bytes := (enc s.counter false p q).slen, channel := ch })
    ∧ (∀ (j : Nat) (bs : List Nat),
        (call_sp enc s q p ch w).events.get? j = some (CallEvent.sockWrite bs) → 1 < j) := by
  refine ⟨?_, ?_, ?_⟩
  · rw [call_sp_state]
    exact lookupReq_insertReq_self _ _ _
  · rw [call_sp_events]
    rfl
  · intro j bs hj
    rw [call_sp_events] at hj
    match j with
    | 0 => simp [List.get?] at hj
    | 1 => simp [List.get?] at hj
    | n + 2 => omega

/-- Claim C8: during the handshake, if the 1-byte auth status in the
server's response body (its second byte) is any value other than 0,
construction returns `Err(AuthFailed)` immediately — no `ConnInfo` is
parsed, no pending-request table and no receive loop are created (the event
list is empty), and no node value is returned. -/
theorem handshake_auth_fail_c8 (all : List Nat) (a : Nat) (cloneRes : Except Nat Unit)
    (h1 : all.get? 1 = some a) (ha : a ≠ 0) :
    node_new (Except.ok all) cloneRes = (Except.error VoltError.AuthFailed, []) := by
  cases all with
  | nil => simp [List.get?] at h1
  | cons b0 rest =>
      cases rest with
      | nil => simp [List.get?] at h1
      | cons b1 rest' =>
          have hb : b1 = a := by simpa [List.get?] using h1
          have ha' : b1 ≠ 0 := fun e => ha (hb.symm.trans e)
          have hp : parseHandshake (b0 :: b1 :: rest') = Except.error VoltError.AuthFailed := by
            unfold parseHandshake
            simp only [bbReadU8, List.get?]
            rw [if_pos ha']
          simp [node_new, hp]

/-- Witness for C8: the two-byte response `[0, 1]` — protocol version 0,
auth status 1 — aborts construction with `AuthFailed` and an empty event
list. -/
theorem handshake_auth_fail_c8_witness :
    ([0, 1] : List Nat).get? 1 = some 1 ∧ (1 : Nat) ≠ 0 ∧
      node_new (Except.ok [0, 1]) (Except.ok ()) = (Except.error VoltError.AuthFailed, []) :=
  ⟨by decide, by decide, handshake_auth_fail_c8 [0, 1] 1 (Except.ok ()) (by decide) (by decide)⟩

/-- Claim C9: the reserved ping sentinel constant, written `1 << 63 - 1` in
the source, evaluates — because `-` binds tighter than `<<` — to
`1 << 62 = 4611686018427387904 = 2^62`, strictly smaller than the maximum
representable 64-bit signed integer `2^63 - 1`. -/
theorem ping_handle_value_c9 :
    PING_HANDLE = 4611686018427387904 ∧ PING_HANDLE = 2 ^ 62 ∧
      PING_HANDLE < 2 ^ 63 - 1 := by decide

/-- Counterexample to C10 as frozen: for the address `"h:80:x"` the portion
after the *first* colon is `"80:x"`, which does not parse as a `u16` — yet
`get_node` does not panic: it takes only the second `split(":")` component
`"80"`, parses port 80, and proceeds to connect. -/
theorem get_node_after_colon_cex_c10 :
    claimAfterFirstColon ['h', ':', '8', '0', ':', 'x'] = some ['8', '0', ':', 'x']
    ∧ u16_from_str ['8', '0', ':', 'x'] = none
    ∧ get_node ['h', ':', '8', '0', ':', 'x'] = GetNodeOutcome.connects ['h'] 80 := by
  refine ⟨?_, ?_, ?_⟩ <;> decide

/-- Claim C10 (corrected): `get_node` panics (via `unwrap`) exactly when the
`:`-split of the address has no second component — in particular whenever
the address contains no `:` at all — or when the second component (the text
between the first and second colon) does not parse as a `u16`; it proceeds
to `Node::new` exactly when that second component is a valid port, extra
`:`-separated components being ignored. -/
theorem get_node_panics_c10 (addr : List Char) :
    (get_node addr = GetNodeOutcome.panicked ↔
      ((splitColon addr).get? 1 = none
        ∨ ∃ p, (splitColon addr).get? 1 = some p ∧ u16_from_str p = none))
    ∧ (':' ∉ addr → get_node addr = GetNodeOutcome.panicked) := by
  constructor
  · obtain ⟨g, gs, hsplit⟩ : ∃ g gs, splitColon addr = g :: gs := by
      cases hs : splitColon addr with
      | nil => exact absurd hs (splitColon_ne_nil addr)
      | cons g gs => exact ⟨g, gs, rfl⟩
    unfold get_node
    rw [hsplit]
    cases gs with
    | nil => simp [List.get?]
    | cons p2 gs' =>
        cases hu : u16_from_str p2 with
        | none => simp [List.get?, hu]
        | some port => simp [List.get?, hu]
  · intro hni
    unfold get_node
    rw [splitColon_no_colon addr hni]
    rfl
